import Mathlib

/- Shallow embedding of the TinPulse fetch-and-merge scripts
(`update_prices.py`, `update_daily_meta.py`, `fill_exchanges.py`).

Pandas frames are modelled as lists of rows; a row is an optional id
(a NaN id is `none`) together with an association list of cells.  A cell
absent from the association list reads as `CVal.na`, matching a frame
cell holding NA (`safe_merge` pads missing live columns with `pd.NA`, a
semantic no-op under this reading).  Network traffic is modelled by an
oracle list of classified responses consumed one per request; each fetch
function returns the state it would leave behind together with the
number of HTTP requests issued and the backoff sleeps performed (in
seconds).  Wall-clock time is a `Nat` of unix seconds passed in as
`now`; `time.time()` is modelled as constant for the duration of one
call.  An exhausted oracle ends a fetch loop with the state accumulated
so far and no further requests. -/

namespace TinPulse

/- A pandas cell value: NA, a string, or a number. -/
inductive CVal
  | na
  | s (v : String)
  | n (v : Int)
deriving DecidableEq

/- One frame row: the `id` column plus the remaining cells. -/
structure Row where
  id : Option String
  cells : List (String × CVal)
deriving DecidableEq

/- Reading a cell of a row; a column absent from the row reads as NA. -/
def getCell (r : Row) (c : String) : CVal :=
  match r.cells.find? (fun p => decide (p.1 = c)) with
  | some p => p.2
  | none => CVal.na

/- Python dict lookup `m.get(k)` over an association list. -/
def aget {α : Type} (m : List (String × α)) (k : String) : Option α :=
  match m.find? (fun p => decide (p.1 = k)) with
  | some p => some p.2
  | none => none

/- Python dict assignment `m[k] = v`: replace the first binding of `k`
in place, or append a fresh binding. -/
def aset {α : Type} (m : List (String × α)) (k : String) (v : α) :
    List (String × α) :=
  match m with
  | [] => [(k, v)]
  | p :: t => if p.1 = k then (k, v) :: t else p :: aset t k v

/- ── update_prices.py ─────────────────────────────────────────────── -/

/- `LIVE_COLS` of update_prices.py (lines 22-27). -/
def LIVE_COLS : List String :=
  ["rank", "price_usd", "change_24h_pct", "change_7d_pct", "change_1y_pct",
   "market_cap", "volume_24h", "status"]

def PAGE_SIZE : Nat := 250

def dropLeadingWS : List Char → List Char
  | [] => []
  | c :: t => if c.isWhitespace then dropLeadingWS t else c :: t

/- Python `str.strip()`: drop leading and trailing whitespace.  (Stated
over the character list so that it evaluates by kernel reduction.) -/
def pyStrip (v : String) : String :=
  String.mk (List.reverse (dropLeadingWS (List.reverse (dropLeadingWS v.data))))

/- A blank id in the sense of `strip_blank_ids`: NaN, empty, or
whitespace-only (`df["id"].notna() & (df["id"].astype(str).str.strip() != "")`). -/
def idBlank : Option String → Bool
  | none => true
  | some v => decide (pyStrip v = "")

/- `strip_blank_ids` of update_prices.py (lines 92-93). -/
def strip_blank_ids (rows : List Row) : List Row :=
  rows.filter (fun r => !idBlank r.id)

/- `market.set_index("id")[LIVE_COLS].to_dict("index")`: lookup of the
market row for an id; for duplicate ids the dict keeps the last row. -/
def liveLookup (market : List Row) (i : Option String) : Option Row :=
  market.reverse.find? (fun r => decide (r.id = i))

/- The inner update loop of `safe_merge`: overwrite every live column of
a store row with the market row's value (NA where the market frame was
padded); all other columns of the row are untouched. -/
def updRow (m r : Row) : Row :=
  { id := r.id
    cells := LIVE_COLS.map (fun c => (c, getCell m c))
      ++ r.cells.filter (fun p => !decide (p.1 ∈ LIVE_COLS)) }

def idsOf (rows : List Row) : List (Option String) :=
  rows.map (fun r => r.id)

/- `safe_merge` of update_prices.py (lines 96-124): strip blank ids from
both frames; if the stripped store is empty, `local = market.copy()` and
the subsequent new-id append is vacuous; otherwise overwrite the live
columns of every store row whose id the market supplies, then append the
market rows whose ids are new. -/
/- One iteration of the `safe_merge` update loop applied to a store row:
if the market supplies the row's id, overwrite its live columns;
otherwise (the id is absent from `live_map`) the row is untouched. -/
def mergeRowUpd (mk : List Row) (r : Row) : Row :=
  match liveLookup mk r.id with
  | some m => updRow m r
  | none => r

def safe_merge (localDf market : List Row) : List Row :=
  if (strip_blank_ids localDf).isEmpty then
    strip_blank_ids market
  else
    (strip_blank_ids localDf).map (mergeRowUpd (strip_blank_ids market))
    ++ (strip_blank_ids market).filter
        (fun m => !decide (m.id ∈ idsOf (strip_blank_ids localDf)))

structure PricesOut where
  rows : List Row
  requests : Nat
deriving DecidableEq

/- The pagination loop of `fetch_markets` in update_prices.py (lines
30-49).  The code performs no status handling at all: every iteration
issues one GET and decodes the body; pagination ends exactly when the
decoded chunk is empty.  The oracle is the list of decoded page bodies.
The downstream column shaping (lines 51-89) is response-schema
navigation outside the claims. -/
def pricesLoop : List Row → List (List Row) → PricesOut
  | acc, [] => { rows := acc, requests := 0 }
  | acc, chunk :: rest =>
    if chunk.isEmpty then { rows := acc, requests := 1 }
    else
      let o := pricesLoop (acc ++ chunk) rest
      { o with requests := o.requests + 1 }

def fetch_markets_prices (pages : List (List Row)) : PricesOut :=
  pricesLoop [] pages

/- ── update_daily_meta.py ─────────────────────────────────────────── -/

/- One listing row as consumed by `fetch_markets` of update_daily_meta.py:
`id`, `market_cap_rank`, `total_volume`, `last_updated`. -/
structure ListingRow where
  id : String
  market_cap_rank : Option Nat
  total_volume : Option Nat
  last_updated : String
deriving DecidableEq

inductive ListResp
  | rateLimited
  | hardError
  | transportError
  | success (chunk : List ListingRow)
deriving DecidableEq

structure MarketsOut where
  aborted : Bool
  rows : List ListingRow
  requests : Nat
  waits : List Nat
deriving DecidableEq

/- The loop of `fetch_markets` in update_daily_meta.py (lines 57-74):
429 increments `retries`, sleeps `20*retries` and retries the same page
with no bound; any other non-200 raises `RuntimeError` (modelled as
`aborted`, as is an uncaught requests exception); an empty chunk ends
pagination; a non-empty chunk is appended, the page advances and
`retries` resets to 0.  The 0.3s inter-page pacing sleep is not
recorded; `waits` records the 429 backoff sleeps. -/
def marketsLoop : List ListingRow → Nat → Nat → List ListResp → MarketsOut
  | rows, _page, _retries, [] =>
    { aborted := false, rows := rows, requests := 0, waits := [] }
  | rows, page, retries, r :: rest =>
    match r with
    | ListResp.rateLimited =>
      let o := marketsLoop rows page (retries + 1) rest
      { o with requests := o.requests + 1, waits := 20 * (retries + 1) :: o.waits }
    | ListResp.hardError =>
      { aborted := true, rows := rows, requests := 1, waits := [] }
    | ListResp.transportError =>
      { aborted := true, rows := rows, requests := 1, waits := [] }
    | ListResp.success chunk =>
      if chunk.isEmpty then
        { aborted := false, rows := rows, requests := 1, waits := [] }
      else
        let o := marketsLoop (rows ++ chunk) (page + 1) 0 rest
        { o with requests := o.requests + 1 }

def fetch_markets_daily (resps : List ListResp) : MarketsOut :=
  marketsLoop [] 1 0 resps

/- Python `x or d` on a numeric-or-None field: None and 0 are falsy. -/
def pyOr (v : Option Nat) (d : Nat) : Nat :=
  match v with
  | none => d
  | some k => if k = 0 then d else k

def rank_map (rows : List ListingRow) (cid : String) : Option Nat :=
  (rows.reverse.find? (fun c => decide (c.id = cid))).map
    (fun c => pyOr c.market_cap_rank 999999)

def vol_map (rows : List ListingRow) (cid : String) : Option Nat :=
  (rows.reverse.find? (fun c => decide (c.id = cid))).map
    (fun c => pyOr c.total_volume 0)

def ts_map (rows : List ListingRow) (cid : String) : Option String :=
  (rows.reverse.find? (fun c => decide (c.id = cid))).map
    (fun c => c.last_updated)

def CORE_RANK_MAX : Nat := 1250
def CORE_VOL_MIN : Nat := 5000000

/- `is_core` of update_daily_meta.py (lines 81-82). -/
def is_core (cid : String) (rows : List ListingRow) : Bool :=
  decide ((rank_map rows cid).getD 999999 ≤ CORE_RANK_MAX)
    || decide (CORE_VOL_MIN ≤ (vol_map rows cid).getD 0)

/- Responses to one `/coins/{id}` request.  `malformed` is a 200 whose
body fails JSON decoding; `success` carries the ten column values the
code extracts from the body (the `deep_get` navigation itself is
response-schema handling outside the claims). -/
inductive MetaResp
  | transportError
  | rateLimited
  | hardError
  | malformed
  | success (fields : List (String × CVal))
deriving DecidableEq

structure MetaOut where
  raised : Bool
  result : Option Row
  defer : List (String × Nat)
  requests : Nat
  sleeps : List Nat
deriving DecidableEq

def MAX_429_RETRIES : Nat := 2
def DEFER_HOURS : Nat := 24

/- The retry loop of `fetch_meta` in update_daily_meta.py (lines 87-131).
A requests exception is uncaught and propagates (`raised`); 429 within
the budget sleeps `20*tries` and retries; 429 beyond `MAX_429_RETRIES`,
any other non-200 status, and a non-JSON body all record the id in the
defer cache and return `{}`; a parsed 200 returns the extracted dict
(which includes `id`). -/
def metaLoop (cid : String) (now : Nat) (defer0 : List (String × Nat)) :
    Nat → List MetaResp → MetaOut
  | _tries, [] =>
    { raised := false, result := none, defer := defer0, requests := 0, sleeps := [] }
  | tries, r :: rest =>
    match r with
    | MetaResp.transportError =>
      { raised := true, result := none, defer := defer0, requests := 1, sleeps := [] }
    | MetaResp.rateLimited =>
      if tries + 1 > MAX_429_RETRIES then
        { raised := false, result := none, defer := aset defer0 cid now,
          requests := 1, sleeps := [] }
      else
        let o := metaLoop cid now defer0 (tries + 1) rest
        { o with requests := o.requests + 1, sleeps := 20 * (tries + 1) :: o.sleeps }
    | MetaResp.hardError =>
      { raised := false, result := none, defer := aset defer0 cid now,
        requests := 1, sleeps := [] }
    | MetaResp.malformed =>
      { raised := false, result := none, defer := aset defer0 cid now,
        requests := 1, sleeps := [] }
    | MetaResp.success fields =>
      { raised := false, result := some { id := some cid, cells := fields },
        defer := defer0, requests := 1, sleeps := [] }

/- `fetch_meta` of update_daily_meta.py (lines 84-131).  The defer guard
mirrors Python truthiness: `(ts := defer.get(cid)) and ts + 24*3600 >
time.time()` skips only when the stored timestamp is present, nonzero,
and younger than the window. -/
def fetch_meta (cid : String) (deferC : List (String × Nat)) (now : Nat)
    (resps : List MetaResp) : MetaOut :=
  match aget deferC cid with
  | some ts =>
    if ts ≠ 0 ∧ now < ts + DEFER_HOURS * 3600 then
      { raised := false, result := none, defer := deferC, requests := 0, sleeps := [] }
    else metaLoop cid now deferC 0 resps
  | none => metaLoop cid now deferC 0 resps

/- `TARGET_COLS` of update_daily_meta.py (lines 139-143). -/
def TARGET_COLS : List String :=
  ["ath_price", "ath_date", "change_30d_pct", "chains", "explorer_url",
   "contract_address", "telegram_url", "reddit_url", "discord_url", "twitter_url"]

/- One row of `df.update(meta_df)`: pandas `update` overwrites only the
columns present in `meta_df` (= TARGET_COLS) and only with non-NA
values; all other cells of the row are untouched. -/
def metaUpdateRow (u r : Row) : Row :=
  { id := r.id
    cells := TARGET_COLS.map (fun c =>
        (c, match getCell u c with
            | CVal.na => getCell r c
            | v => v))
      ++ r.cells.filter (fun p => !decide (p.1 ∈ TARGET_COLS)) }

/- The merge step of update_daily_meta.py `main` (lines 169-173):
`df.set_index("id"); df.update(meta_df); df.reset_index()`.  Each store
row whose id matches an update row is overwritten per `metaUpdateRow`;
every other row is returned as is.  `DataFrame.update` never adds rows:
update rows whose id is absent from the store are dropped. -/
/- The fate of one store row under `df.update(meta_df)`: overwritten per
`metaUpdateRow` when an update row carries its id, untouched otherwise. -/
def metaApply (updates : List Row) (r : Row) : Row :=
  match updates.find? (fun u => decide (u.id = r.id)) with
  | some u => metaUpdateRow u r
  | none => r

def metaUpdate (df updates : List Row) : List Row :=
  df.map (metaApply updates)

/- ── fill_exchanges.py ────────────────────────────────────────────── -/

inductive ExResp
  | transportError
  | rateLimited
  | hardError
  | success (tickers : List (Option String))
deriving DecidableEq

structure ExOut where
  result : String
  cache : List (String × String)
  defer : List (String × Nat)
  requests : Nat
  sleeps : List Nat
deriving DecidableEq

def EXCH_SLEEP : Nat := 1
def MAX_RETRIES : Nat := 3
def SKIP_HOURS : Nat := 24

/- `hashlib.sha256(cid.encode()).hexdigest()`: the digest itself is
library code outside this repository; it is modelled as an injective
deterministic tagging of the id, which is the only property the scripts
rely on. -/
def sha256_hexdigest (cid : String) : String :=
  "sha256:" ++ cid

/- `safe` of fill_exchanges.py (lines 24-25): NaN reads as the default
empty string, anything else is stripped. -/
def safeStr : Option String → String
  | none => ""
  | some v => pyStrip v

/- Python `set.add` preserving first-insertion order. -/
def strSetInsert (xs : List String) (x : String) : List String :=
  if x ∈ xs then xs else xs ++ [x]

/- Lines 65-67: collect the non-blank market names of one tickers page. -/
def addNames (names : List String) (tickers : List (Option String)) :
    List String :=
  tickers.foldl (fun acc t =>
    let m := safeStr t
    if m = "" then acc else strSetInsert acc m) names

def insSorted (x : String) : List String → List String
  | [] => [x]
  | y :: ys => if x ≤ y then x :: y :: ys else y :: insSorted x ys

def sortStrings (xs : List String) : List String :=
  xs.foldr insSorted []

/- `"|".join(sorted(names))`. -/
def joinNames (names : List String) : String :=
  String.intercalate ("|") (sortStrings names)

/- The fetch loop of `fetch_exchanges` in fill_exchanges.py (lines
34-76).  A requests exception is caught: the id is deferred and the call
returns "".  429 within the budget sleeps `20*retries` and retries; 429
beyond `MAX_RETRIES` defers and returns "".  Any other non-200 returns
"" without deferring.  A page of fewer than 100 tickers ends pagination:
the sorted joined names are returned and cached only when non-empty; a
full page continues after the 1s page sleep. -/
def exLoop (cid key : String) (now : Nat) (cache0 : List (String × String))
    (defer0 : List (String × Nat)) :
    Nat → List String → Nat → List ExResp → ExOut
  | _retries, _names, _page, [] =>
    { result := "", cache := cache0, defer := defer0, requests := 0, sleeps := [] }
  | retries, names, page, r :: rest =>
    match r with
    | ExResp.transportError =>
      { result := "", cache := cache0, defer := aset defer0 cid now,
        requests := 1, sleeps := [] }
    | ExResp.rateLimited =>
      if retries + 1 > MAX_RETRIES then
        { result := "", cache := cache0, defer := aset defer0 cid now,
          requests := 1, sleeps := [] }
      else
        let o := exLoop cid key now cache0 defer0 (retries + 1) names page rest
        { o with requests := o.requests + 1, sleeps := 20 * (retries + 1) :: o.sleeps }
    | ExResp.hardError =>
      { result := "", cache := cache0, defer := defer0, requests := 1, sleeps := [] }
    | ExResp.success tickers =>
      let names2 := addNames names tickers
      if tickers.length < 100 then
        let exch := joinNames names2
        { result := exch
          cache := if exch = "" then cache0 else aset cache0 key exch
          defer := defer0, requests := 1, sleeps := [] }
      else
        let o := exLoop cid key now cache0 defer0 retries names2 (page + 1) rest
        { o with requests := o.requests + 1, sleeps := EXCH_SLEEP :: o.sleeps }

/- `fetch_exchanges` of fill_exchanges.py (lines 27-76).  A cache hit on
the hashed id returns the cached value before any network activity; the
defer guard mirrors Python truthiness as in `fetch_meta`. -/
def fetch_exchanges (cid : String) (cache : List (String × String))
    (deferC : List (String × Nat)) (now : Nat) (resps : List ExResp) : ExOut :=
  let key := sha256_hexdigest cid
  match aget cache key with
  | some v =>
    { result := v, cache := cache, defer := deferC, requests := 0, sleeps := [] }
  | none =>
    match aget deferC cid with
    | some ts =>
      if ts ≠ 0 ∧ now < ts + SKIP_HOURS * 3600 then
        { result := "", cache := cache, defer := deferC, requests := 0, sleeps := [] }
      else exLoop cid key now cache deferC 0 [] 1 resps
    | none => exLoop cid key now cache deferC 0 [] 1 resps

/- ── helper lemmas ────────────────────────────────────────────────── -/

theorem aget_aset_self {α : Type} (m : List (String × α)) (k : String) (v : α) :
    aget (aset m k v) k = some v := by
  induction m with
  | nil => simp [aset, aget]
  | cons p t ih =>
    by_cases h : p.1 = k
    · simp [aset, h, aget]
    · simp only [aset, if_neg h]
      rw [aget, List.find?_cons_of_neg _ (by simpa using h)]
      simpa [aget] using ih

theorem filter_strip_of_nonblank (i : Option String) (hi : idBlank i = false)
    (l : List Row) :
    (strip_blank_ids l).filter (fun r => decide (r.id = i))
      = l.filter (fun r => decide (r.id = i)) := by
  rw [strip_blank_ids, List.filter_filter]
  refine List.filter_congr ?_
  intro r _
  by_cases h : r.id = i
  · have hb : idBlank r.id = false := by rw [h]; exact hi
    simp [h, hb, hi]
  · simp [h]

theorem filter_eq_nil_of_no_id (i : Option String) (l : List Row)
    (h : ∀ r ∈ l, r.id ≠ i) :
    l.filter (fun r => decide (r.id = i)) = [] := by
  refine List.filter_eq_nil_iff.mpr ?_
  intro r hr
  simpa using h r hr

theorem filter_eq_nil_of_strip_empty (l : List Row)
    (h : strip_blank_ids l = []) (i : Option String)
    (hi : idBlank i = false) :
    l.filter (fun r => decide (r.id = i)) = [] := by
  refine filter_eq_nil_of_no_id i l ?_
  intro r hr hri
  have hb : idBlank r.id = false := by rw [hri]; exact hi
  have hmem : r ∈ strip_blank_ids l := List.mem_filter.mpr ⟨hr, by simp [hb]⟩
  rw [h] at hmem
  exact absurd hmem (List.not_mem_nil r)

theorem filter_map_agree (g h : Row → Row) (i : Option String)
    (hg : ∀ r, (g r).id = r.id) (hagree : ∀ r, r.id = i → g r = h r)
    (l : List Row) :
    (l.map g).filter (fun r => decide (r.id = i))
      = (l.filter (fun r => decide (r.id = i))).map h := by
  induction l with
  | nil => rfl
  | cons r t ih =>
    by_cases hr : r.id = i
    · have hgr : (g r).id = i := by rw [hg]; exact hr
      rw [List.map_cons, List.filter_cons, if_pos (by simpa using hgr),
        List.filter_cons, if_pos (by simpa using hr), List.map_cons,
        hagree r hr, ih]
    · have hgr : ¬ (g r).id = i := by rw [hg]; exact hr
      rw [List.map_cons, List.filter_cons, if_neg (by simpa using hgr),
        List.filter_cons, if_neg (by simpa using hr), ih]

theorem filter_filter_of_imp {α : Type} (p q : α → Bool) (l : List α)
    (h : ∀ a ∈ l, p a = true → q a = true) :
    (l.filter q).filter p = l.filter p := by
  rw [List.filter_filter]
  refine List.filter_congr ?_
  intro a ha
  by_cases hp : p a = true
  · simp [hp, h a ha hp]
  · simp [Bool.eq_false_iff.mpr, Bool.not_eq_true] at hp
    simp [hp]

theorem find?_filter_of_imp {α : Type} (p q : α → Bool) (l : List α)
    (h : ∀ a ∈ l, p a = true → q a = true) :
    (l.filter q).find? p = l.find? p := by
  induction l with
  | nil => rfl
  | cons a t ih =>
    have ih' := ih (fun x hx => h x (List.mem_cons_of_mem a hx))
    by_cases hp : p a = true
    · have hq := h a (List.mem_cons_self a t) hp
      rw [List.filter_cons, if_pos hq, List.find?_cons_of_pos _ hp,
        List.find?_cons_of_pos _ hp]
    · by_cases hq : q a = true
      · rw [List.filter_cons, if_pos hq, List.find?_cons_of_neg _ (by simpa using hp),
          List.find?_cons_of_neg _ (by simpa using hp), ih']
      · rw [List.filter_cons, if_neg hq, List.find?_cons_of_neg _ (by simpa using hp), ih']

theorem map_id_of_preserve (g : Row → Row) (hg : ∀ r, (g r).id = r.id)
    (l : List Row) :
    (l.map g).map (fun r => r.id) = l.map (fun r => r.id) := by
  induction l with
  | nil => rfl
  | cons r t ih => simp [hg, ih]

theorem exLoop_requests_pos (cid key : String) (now : Nat)
    (cache0 : List (String × String)) (defer0 : List (String × Nat))
    (retries : Nat) (names : List String) (page : Nat)
    (r : ExResp) (rest : List ExResp) :
    1 ≤ (exLoop cid key now cache0 defer0 retries names page (r :: rest)).requests := by
  cases r <;> simp only [exLoop] <;> (try split) <;> simp

theorem metaLoop_requests_pos (cid : String) (now : Nat)
    (defer0 : List (String × Nat)) (tries : Nat)
    (r : MetaResp) (rest : List MetaResp) :
    1 ≤ (metaLoop cid now defer0 tries (r :: rest)).requests := by
  cases r <;> simp only [metaLoop] <;> (try split) <;> simp

theorem marketsLoop_requests_pos (rows : List ListingRow) (page retries : Nat)
    (r : ListResp) (rest : List ListResp) :
    1 ≤ (marketsLoop rows page retries (r :: rest)).requests := by
  cases r <;> simp only [marketsLoop] <;> (try split) <;> simp

theorem pricesLoop_requests_pos (acc chunk : List Row)
    (rest : List (List Row)) :
    1 ≤ (pricesLoop acc (chunk :: rest)).requests := by
  simp only [pricesLoop]
  split <;> simp

/- The cache written back by the fetch loop: either untouched, or the
(non-empty) aggregated result was stored under the fetch's key. -/
theorem exLoop_cache_write (cid key : String) (now : Nat)
    (cache0 : List (String × String)) (defer0 : List (String × Nat)) :
    ∀ (resps : List ExResp) (retries : Nat) (names : List String) (page : Nat),
    (exLoop cid key now cache0 defer0 retries names page resps).cache = cache0
      ∨ ((exLoop cid key now cache0 defer0 retries names page resps).result ≠ ""
         ∧ (exLoop cid key now cache0 defer0 retries names page resps).cache
             = aset cache0 key
                 (exLoop cid key now cache0 defer0 retries names page resps).result) := by
  intro resps
  induction resps with
  | nil => intro retries names page; left; rfl
  | cons r rest ih =>
    intro retries names page
    cases r with
    | transportError => left; rfl
    | hardError => left; rfl
    | rateLimited =>
      by_cases hb : retries + 1 > MAX_RETRIES
      · left; simp [exLoop, hb]
      · have h := ih (retries + 1) names page
        simpa [exLoop, hb] using h
    | success tickers =>
      by_cases hlen : tickers.length < 100
      · by_cases hres : joinNames (addNames names tickers) = ""
        · left; simp [exLoop, hlen, hres]
        · right; simp [exLoop, hlen, hres]
      · have h := ih retries (addNames names tickers) (page + 1)
        simpa [exLoop, hlen] using h

/- A run of `k` RateLimited listing responses: the daily listing fetch
retries the same page `k` times with backoff `20*(retries+1)` and then
continues, its retry counter advanced by `k`. -/
theorem marketsLoop_replicate_rl (k : Nat) :
    ∀ (rows : List ListingRow) (page r : Nat) (rest : List ListResp),
    marketsLoop rows page r (List.replicate k ListResp.rateLimited ++ rest)
      = (fun o => { o with
          requests := o.requests + k,
          waits := (List.range k).map (fun t => 20 * (r + t + 1)) ++ o.waits })
        (marketsLoop rows page (r + k) rest) := by
  induction k with
  | zero => intro rows page r rest; simp
  | succ k ih =>
    intro rows page r rest
    rw [List.replicate_succ, List.cons_append]
    simp only [marketsLoop]
    rw [ih rows page (r + 1) rest]
    have harith : r + 1 + k = r + (k + 1) := by omega
    rw [harith]
    have hw : (List.range (k + 1)).map (fun t => 20 * (r + t + 1))
        = 20 * (r + 1) :: (List.range k).map (fun t => 20 * (r + 1 + t + 1)) := by
      rw [List.range_succ_eq_map, List.map_cons, List.map_map]
      refine congrArg₂ _ (by omega) ?_
      refine List.map_congr_left ?_
      intro t _
      simp only [Function.comp]
      omega
    simp only [hw, List.cons_append]
    congr 1

theorem mergeRowUpd_id (mk : List Row) (r : Row) :
    (mergeRowUpd mk r).id = r.id := by
  unfold mergeRowUpd
  cases hL : liveLookup mk r.id <;> simp [updRow]

theorem mergeRowUpd_of_none (mk : List Row) (r : Row)
    (h : liveLookup mk r.id = none) : mergeRowUpd mk r = r := by
  unfold mergeRowUpd
  rw [h]

theorem mergeRowUpd_of_some (mk : List Row) (r m : Row)
    (h : liveLookup mk r.id = some m) : mergeRowUpd mk r = updRow m r := by
  unfold mergeRowUpd
  rw [h]

theorem metaApply_id (updates : List Row) (r : Row) :
    (metaApply updates r).id = r.id := by
  unfold metaApply
  cases hL : updates.find? (fun u => decide (u.id = r.id)) <;>
    simp [metaUpdateRow]

theorem metaApply_of_not_mem (updates : List Row) (r : Row)
    (h : ∀ u ∈ updates, u.id ≠ r.id) : metaApply updates r = r := by
  have hnone : updates.find? (fun u => decide (u.id = r.id)) = none := by
    refine List.find?_eq_none.mpr ?_
    intro u hu
    simpa using h u hu
  unfold metaApply
  rw [hnone]

/- ── claim theorems ───────────────────────────────────────────────── -/

/-- C10 (confirmed): `safe_merge` removes every store row whose id is
missing (NaN) or an empty/whitespace-only string before merging: every
row of the merged result has a non-blank id, so a blank-id row present
in the input store is absent from the written store even though it
existed before the run. -/
theorem c10_blank_ids_removed (localDf market : List Row) (r : Row)
    (h1 : r ∈ localDf) (h2 : idBlank r.id = true) :
    r ∉ safe_merge localDf market
      ∧ ∀ r2 ∈ safe_merge localDf market, idBlank r2.id = false := by
  have hall : ∀ r2 ∈ safe_merge localDf market, idBlank r2.id = false := by
    intro r2 hr2
    rw [safe_merge] at hr2
    by_cases hE : (strip_blank_ids localDf).isEmpty
    · rw [if_pos hE] at hr2
      have hb := (List.mem_filter.mp hr2).2
      simpa using hb
    · rw [if_neg hE] at hr2
      rcases List.mem_append.mp hr2 with hA | hB
      · rcases List.mem_map.mp hA with ⟨r0, hr0, hmap⟩
        have hid : r2.id = r0.id := by
          rw [← hmap]
          exact mergeRowUpd_id _ r0
        have hb := (List.mem_filter.mp hr0).2
        rw [hid]
        simpa using hb
      · have hmk := (List.mem_filter.mp hB).1
        have hb := (List.mem_filter.mp hmk).2
        simpa using hb
  refine ⟨?_, hall⟩
  intro hmem
  rw [hall r hmem] at h2
  simp at h2

/-- C10 witness: a whitespace-only-id row present in the input store is
gone from the merged store. -/
theorem c10_witness :
    (⟨some (" "), []⟩ : Row) ∈ [(⟨some (" "), []⟩ : Row)]
      ∧ idBlank (some (" ")) = true
      ∧ ((⟨some (" "), []⟩ : Row) ∉ safe_merge [⟨some (" "), []⟩] []
         ∧ ∀ r2 ∈ safe_merge [⟨some (" "), []⟩] [], idBlank r2.id = false) :=
  ⟨by decide, by decide,
    c10_blank_ids_removed [⟨some (" "), []⟩] [] ⟨some (" "), []⟩
      (by decide) (by decide)⟩

/-- C1 counterexample: a store row whose id is whitespace-only is present
before the merge, and its id is absent from the remote snapshot, yet
`safe_merge` removes the row — the merged store is empty — contradicting
the claim that no previously persisted row is ever removed. -/
theorem c1_counterexample :
    (⟨some (" "), [("rank", CVal.n 1)]⟩ : Row) ∈
        [(⟨some (" "), [("rank", CVal.n 1)]⟩ : Row)]
      ∧ safe_merge [⟨some (" "), [("rank", CVal.n 1)]⟩] [] = [] := by
  constructor
  · decide
  · rfl

/-- C1 (amended): never-delete holds for every NON-blank id. For an id
that is neither missing nor whitespace-only, present in the store and
absent from the remote snapshot, `safe_merge` returns exactly the
store's rows for that id (same rows, same cells), and the daily-meta
update step likewise returns the store's rows for that id unchanged when
no update row carries it. -/
theorem c1_never_delete_amended (localDf market df updates : List Row)
    (i : Option String)
    (h1 : idBlank i = false)
    (h2 : ∀ m ∈ market, m.id ≠ i)
    (h3 : ∀ u ∈ updates, u.id ≠ i) :
    ((safe_merge localDf market).filter (fun r => decide (r.id = i))
       = localDf.filter (fun r => decide (r.id = i)))
    ∧ ((metaUpdate df updates).filter (fun r => decide (r.id = i))
       = df.filter (fun r => decide (r.id = i))) := by
  constructor
  · rw [safe_merge]
    by_cases hE : (strip_blank_ids localDf).isEmpty
    · rw [if_pos hE]
      have hnil : strip_blank_ids localDf = [] := List.isEmpty_iff.mp hE
      rw [filter_strip_of_nonblank i h1 market,
        filter_eq_nil_of_no_id i market h2,
        filter_eq_nil_of_strip_empty localDf hnil i h1]
    · rw [if_neg hE, List.filter_append]
      have hmk : ∀ m ∈ strip_blank_ids market, m.id ≠ i := by
        intro m hm
        exact h2 m (List.mem_filter.mp hm).1
      have happend : ((strip_blank_ids market).filter
          (fun m => !decide (m.id ∈ idsOf (strip_blank_ids localDf)))).filter
            (fun r => decide (r.id = i)) = [] := by
        refine filter_eq_nil_of_no_id i _ ?_
        intro r hr
        exact hmk r (List.mem_filter.mp hr).1
      rw [happend, List.append_nil]
      have hfix : ∀ r : Row, r.id = i →
          mergeRowUpd (strip_blank_ids market) r = r := by
        intro r hr
        refine mergeRowUpd_of_none _ r ?_
        rw [hr]
        refine List.find?_eq_none.mpr ?_
        intro x hx
        have hxmem : x ∈ strip_blank_ids market := List.mem_reverse.mp hx
        simpa using hmk x hxmem
      have hmap := filter_map_agree (mergeRowUpd (strip_blank_ids market))
        (fun r => r) i (fun r => mergeRowUpd_id _ r) hfix
        (strip_blank_ids localDf)
      rw [hmap, List.map_id', filter_strip_of_nonblank i h1 localDf]
  · have hfix : ∀ r : Row, r.id = i → metaApply updates r = r := by
      intro r hr
      refine metaApply_of_not_mem updates r ?_
      intro u hu
      rw [hr]
      exact h3 u hu
    have hmap := filter_map_agree (metaApply updates) (fun r => r) i
      (fun r => metaApply_id updates r) hfix df
    rw [metaUpdate, hmap, List.map_id']

/-- C1 witness: a concrete non-blank id outside the snapshot keeps its
row and cells through both merge paths. -/
theorem c1_witness :
    idBlank (some ("aave")) = false
      ∧ (∀ m ∈ [(⟨some ("btc"), [("rank", CVal.n 1)]⟩ : Row)],
          m.id ≠ some ("aave"))
      ∧ (∀ u ∈ [(⟨some ("btc"), [("chains", CVal.s ("eth"))]⟩ : Row)],
          u.id ≠ some ("aave"))
      ∧ (((safe_merge [⟨some ("aave"), [("rank", CVal.n 9)]⟩]
              [⟨some ("btc"), [("rank", CVal.n 1)]⟩]).filter
            (fun r => decide (r.id = some ("aave")))
          = [(⟨some ("aave"), [("rank", CVal.n 9)]⟩ : Row)].filter
              (fun r => decide (r.id = some ("aave"))))
        ∧ ((metaUpdate [⟨some ("aave"), [("rank", CVal.n 9)]⟩]
              [⟨some ("btc"), [("chains", CVal.s ("eth"))]⟩]).filter
            (fun r => decide (r.id = some ("aave")))
          = [(⟨some ("aave"), [("rank", CVal.n 9)]⟩ : Row)].filter
              (fun r => decide (r.id = some ("aave"))))) :=
  ⟨by decide, by decide, by decide,
    c1_never_delete_amended
      [⟨some ("aave"), [("rank", CVal.n 9)]⟩]
      [⟨some ("btc"), [("rank", CVal.n 1)]⟩]
      [⟨some ("aave"), [("rank", CVal.n 9)]⟩]
      [⟨some ("btc"), [("chains", CVal.s ("eth"))]⟩]
      (some ("aave")) (by decide) (by decide) (by decide)⟩

/-- C2 counterexample: in the daily-meta merge step (`df.update`), an
update row whose id is absent from the store is silently dropped — no
new row is appended for an id present only in the snapshot, so the
claim's append clause fails on that merge path. -/
theorem c2_counterexample :
    metaUpdate [⟨some ("aave"), []⟩]
        [⟨some ("newcoin"), [("chains", CVal.s ("eth"))]⟩]
      = [⟨some ("aave"), []⟩]
      ∧ ∀ r ∈ metaUpdate [⟨some ("aave"), []⟩]
          [⟨some ("newcoin"), [("chains", CVal.s ("eth"))]⟩],
          r.id ≠ some ("newcoin") := by
  constructor
  · rfl
  · decide

/-- C2 (amended): upsert correctness holds for `safe_merge`: for an id
present in both store and snapshot the merged rows are the store's rows
with every live column overwritten by the snapshot's value and every
other column retained (`updRow`), and for a non-blank id present only in
the snapshot the snapshot's rows for it are appended verbatim.  The
daily-meta update step only overwrites matching rows: it preserves the
store's id list exactly, and ids present only in the snapshot are
dropped rather than appended. -/
theorem c2_upsert_amended (localDf market df updates : List Row)
    (i j : Option String) (m : Row)
    (h1 : idBlank i = false)
    (h2 : i ∈ idsOf (strip_blank_ids localDf))
    (h3 : liveLookup (strip_blank_ids market) i = some m)
    (h4 : idBlank j = false)
    (h5 : ∀ r ∈ localDf, r.id ≠ j) :
    ((safe_merge localDf market).filter (fun r => decide (r.id = i))
        = (localDf.filter (fun r => decide (r.id = i))).map (updRow m))
    ∧ ((safe_merge localDf market).filter (fun r => decide (r.id = j))
        = market.filter (fun r => decide (r.id = j)))
    ∧ (∀ (r : Row) (c : String),
        (c ∈ LIVE_COLS → getCell (updRow m r) c = getCell m c)
        ∧ (c ∉ LIVE_COLS → getCell (updRow m r) c = getCell r c))
    ∧ idsOf (metaUpdate df updates) = idsOf df := by
  have hne : ¬ (strip_blank_ids localDf).isEmpty := by
    intro hE
    rw [List.isEmpty_iff.mp hE] at h2
    simp [idsOf] at h2
  refine ⟨?_, ?_, ?_, ?_⟩
  · rw [safe_merge, if_neg hne, List.filter_append]
    have happend : ((strip_blank_ids market).filter
        (fun m2 => !decide (m2.id ∈ idsOf (strip_blank_ids localDf)))).filter
          (fun r => decide (r.id = i)) = [] := by
      refine filter_eq_nil_of_no_id i _ ?_
      intro r hr hri
      have hq := (List.mem_filter.mp hr).2
      rw [hri] at hq
      simp [h2] at hq
    have hfix : ∀ r : Row, r.id = i →
        mergeRowUpd (strip_blank_ids market) r = updRow m r := by
      intro r hr
      refine mergeRowUpd_of_some _ r m ?_
      rw [hr]
      exact h3
    have hmap := filter_map_agree (mergeRowUpd (strip_blank_ids market))
      (updRow m) i (fun r => mergeRowUpd_id _ r) hfix
      (strip_blank_ids localDf)
    rw [happend, List.append_nil, hmap, filter_strip_of_nonblank i h1 localDf]
  · rw [safe_merge, if_neg hne, List.filter_append]
    have hstripped : ∀ r ∈ strip_blank_ids localDf, r.id ≠ j := by
      intro r hr
      exact h5 r (List.mem_filter.mp hr).1
    have hmapnil : ((strip_blank_ids localDf).map
        (mergeRowUpd (strip_blank_ids market))).filter
          (fun r => decide (r.id = j)) = [] := by
      refine filter_eq_nil_of_no_id j _ ?_
      intro r hr
      rcases List.mem_map.mp hr with ⟨r0, hr0, hmap0⟩
      rw [← hmap0, mergeRowUpd_id]
      exact hstripped r0 hr0
    have hq : ∀ r ∈ strip_blank_ids market,
        decide (r.id = j) = true →
          (!decide (r.id ∈ idsOf (strip_blank_ids localDf))) = true := by
      intro r _ hrj
      have hrj2 : r.id = j := of_decide_eq_true hrj
      simp only [Bool.not_eq_true', decide_eq_false_iff_not]
      intro hmem
      rcases List.mem_map.mp hmem with ⟨r0, hr0, hid0⟩
      exact hstripped r0 hr0 (hid0.trans hrj2)
    rw [hmapnil, List.nil_append,
      filter_filter_of_imp (fun r : Row => decide (r.id = j))
        (fun m2 => !decide (m2.id ∈ idsOf (strip_blank_ids localDf)))
        (strip_blank_ids market) hq,
      filter_strip_of_nonblank j h4 market]
  · intro r c
    constructor
    · intro hc
      simp only [LIVE_COLS, List.mem_cons, List.not_mem_nil, or_false] at hc
      rcases hc with rfl | rfl | rfl | rfl | rfl | rfl | rfl | rfl <;> rfl
    · intro hc
      show getCell (updRow m r) c = getCell r c
      rw [getCell, getCell, updRow]
      simp only
      rw [List.find?_append]
      have hnone : (LIVE_COLS.map (fun c2 => (c2, getCell m c2))).find?
          (fun p => decide (p.1 = c)) = none := by
        refine List.find?_eq_none.mpr ?_
        intro x hx
        rcases List.mem_map.mp hx with ⟨c2, hc2, hxeq⟩
        simp only [decide_eq_true_eq]
        intro hxc
        rw [← hxeq] at hxc
        exact hc (hxc ▸ hc2)
      rw [hnone, Option.none_or]
      rw [find?_filter_of_imp (fun p => decide (p.1 = c)) _ r.cells ?_]
      intro x _ hx
      have hxc : x.1 = c := of_decide_eq_true hx
      simp only [Bool.not_eq_true', decide_eq_false_iff_not]
      rw [hxc]
      exact hc
  · rw [metaUpdate]
    exact map_id_of_preserve (metaApply updates)
      (fun r => metaApply_id updates r) df

/-- C2 witness: concrete store and snapshot exercising the in-both
overwrite, the snapshot-only append, and the daily-meta id preservation. -/
theorem c2_witness :
    idBlank (some ("aave")) = false
      ∧ some ("aave") ∈ idsOf (strip_blank_ids
          [⟨some ("aave"), [("rank", CVal.n 9), ("exchanges", CVal.s ("x"))]⟩])
      ∧ liveLookup (strip_blank_ids [⟨some ("aave"), [("rank", CVal.n 1)]⟩,
            ⟨some ("newcoin"), [("rank", CVal.n 4)]⟩]) (some ("aave"))
          = some ⟨some ("aave"), [("rank", CVal.n 1)]⟩
      ∧ idBlank (some ("newcoin")) = false
      ∧ (∀ r ∈ [(⟨some ("aave"), [("rank", CVal.n 9), ("exchanges", CVal.s ("x"))]⟩ : Row)],
          r.id ≠ some ("newcoin"))
      ∧ (((safe_merge
            [⟨some ("aave"), [("rank", CVal.n 9), ("exchanges", CVal.s ("x"))]⟩]
            [⟨some ("aave"), [("rank", CVal.n 1)]⟩,
             ⟨some ("newcoin"), [("rank", CVal.n 4)]⟩]).filter
              (fun r => decide (r.id = some ("aave")))
          = ([(⟨some ("aave"), [("rank", CVal.n 9), ("exchanges", CVal.s ("x"))]⟩ : Row)].filter
              (fun r => decide (r.id = some ("aave")))).map
                (updRow ⟨some ("aave"), [("rank", CVal.n 1)]⟩))
        ∧ ((safe_merge
            [⟨some ("aave"), [("rank", CVal.n 9), ("exchanges", CVal.s ("x"))]⟩]
            [⟨some ("aave"), [("rank", CVal.n 1)]⟩,
             ⟨some ("newcoin"), [("rank", CVal.n 4)]⟩]).filter
              (fun r => decide (r.id = some ("newcoin")))
          = [⟨some ("aave"), [("rank", CVal.n 1)]⟩,
             (⟨some ("newcoin"), [("rank", CVal.n 4)]⟩ : Row)].filter
              (fun r => decide (r.id = some ("newcoin"))))
        ∧ (∀ (r : Row) (c : String),
            (c ∈ LIVE_COLS →
              getCell (updRow ⟨some ("aave"), [("rank", CVal.n 1)]⟩ r) c
                = getCell ⟨some ("aave"), [("rank", CVal.n 1)]⟩ c)
            ∧ (c ∉ LIVE_COLS →
              getCell (updRow ⟨some ("aave"), [("rank", CVal.n 1)]⟩ r) c
                = getCell r c))
        ∧ idsOf (metaUpdate [⟨some ("aave"), []⟩]
            [⟨some ("newcoin"), [("chains", CVal.s ("eth"))]⟩])
          = idsOf [(⟨some ("aave"), []⟩ : Row)]) :=
  ⟨by decide, by decide, by decide, by decide, by decide,
    c2_upsert_amended
      [⟨some ("aave"), [("rank", CVal.n 9), ("exchanges", CVal.s ("x"))]⟩]
      [⟨some ("aave"), [("rank", CVal.n 1)]⟩,
       ⟨some ("newcoin"), [("rank", CVal.n 4)]⟩]
      [⟨some ("aave"), []⟩]
      [⟨some ("newcoin"), [("chains", CVal.s ("eth"))]⟩]
      (some ("aave")) (some ("newcoin"))
      ⟨some ("aave"), [("rank", CVal.n 1)]⟩
      (by decide) (by decide) (by decide) (by decide) (by decide)⟩

theorem fetch_exchanges_cache_write (cid : String)
    (cache : List (String × String)) (deferC : List (String × Nat))
    (now : Nat) (resps : List ExResp) :
    (fetch_exchanges cid cache deferC now resps).cache = cache
      ∨ ((fetch_exchanges cid cache deferC now resps).result ≠ ""
         ∧ (fetch_exchanges cid cache deferC now resps).cache
             = aset cache (sha256_hexdigest cid)
                 (fetch_exchanges cid cache deferC now resps).result) := by
  simp only [fetch_exchanges]
  split
  · left; rfl
  · split
    · split
      · left; rfl
      · exact exLoop_cache_write cid (sha256_hexdigest cid) now cache deferC
          resps 0 [] 1
    · exact exLoop_cache_write cid (sha256_hexdigest cid) now cache deferC
        resps 0 [] 1

/-- C3 (confirmed): once `ItemValueCache` (`exch_cache`) holds a
non-empty value for an id, `fetch_exchanges` returns that value
immediately with zero network requests and leaves both caches untouched;
and in full generality a completed fetch only ever writes its cache key
with a non-empty aggregated result, so a cached non-empty value is never
overwritten by an empty or failed fetch. -/
theorem c3_cache_permanence (cid v : String) (cache : List (String × String))
    (deferC : List (String × Nat)) (now : Nat) (resps : List ExResp)
    (h1 : aget cache (sha256_hexdigest cid) = some v) (h2 : v ≠ "") :
    ((fetch_exchanges cid cache deferC now resps).result = v
      ∧ (fetch_exchanges cid cache deferC now resps).requests = 0
      ∧ (fetch_exchanges cid cache deferC now resps).cache = cache
      ∧ (fetch_exchanges cid cache deferC now resps).defer = deferC)
    ∧ ∀ (cid2 : String) (cache2 : List (String × String))
        (defer2 : List (String × Nat)) (now2 : Nat) (resps2 : List ExResp),
        aget (fetch_exchanges cid2 cache2 defer2 now2 resps2).cache
            (sha256_hexdigest cid2)
          = aget cache2 (sha256_hexdigest cid2)
        ∨ ((fetch_exchanges cid2 cache2 defer2 now2 resps2).result ≠ ""
           ∧ aget (fetch_exchanges cid2 cache2 defer2 now2 resps2).cache
               (sha256_hexdigest cid2)
             = some (fetch_exchanges cid2 cache2 defer2 now2 resps2).result) := by
  constructor
  · simp [fetch_exchanges, h1]
  · intro cid2 cache2 defer2 now2 resps2
    rcases fetch_exchanges_cache_write cid2 cache2 defer2 now2 resps2 with
      hc | ⟨hr, hc⟩
    · left; rw [hc]
    · right
      exact ⟨hr, by rw [hc, aget_aset_self]⟩

/-- C3 witness: a concrete non-empty cached value is returned with no
request issued and no state change. -/
theorem c3_witness :
    aget [((sha256_hexdigest ("btc")), "Binance")] (sha256_hexdigest ("btc"))
        = some ("Binance")
      ∧ ("Binance" : String) ≠ ""
      ∧ (((fetch_exchanges ("btc") [((sha256_hexdigest ("btc")), "Binance")]
            [] 1000 [ExResp.hardError]).result = "Binance"
        ∧ (fetch_exchanges ("btc") [((sha256_hexdigest ("btc")), "Binance")]
            [] 1000 [ExResp.hardError]).requests = 0
        ∧ (fetch_exchanges ("btc") [((sha256_hexdigest ("btc")), "Binance")]
            [] 1000 [ExResp.hardError]).cache
              = [((sha256_hexdigest ("btc")), "Binance")]
        ∧ (fetch_exchanges ("btc") [((sha256_hexdigest ("btc")), "Binance")]
            [] 1000 [ExResp.hardError]).defer = [])
      ∧ ∀ (cid2 : String) (cache2 : List (String × String))
          (defer2 : List (String × Nat)) (now2 : Nat) (resps2 : List ExResp),
          aget (fetch_exchanges cid2 cache2 defer2 now2 resps2).cache
              (sha256_hexdigest cid2)
            = aget cache2 (sha256_hexdigest cid2)
          ∨ ((fetch_exchanges cid2 cache2 defer2 now2 resps2).result ≠ ""
             ∧ aget (fetch_exchanges cid2 cache2 defer2 now2 resps2).cache
                 (sha256_hexdigest cid2)
               = some (fetch_exchanges cid2 cache2 defer2 now2 resps2).result)) :=
  ⟨by decide, by decide,
    c3_cache_permanence ("btc") ("Binance")
      [((sha256_hexdigest ("btc")), "Binance")] [] 1000 [ExResp.hardError]
      (by decide) (by decide)⟩

/-- C4 (confirmed): a detail fetch that receives 429 on every attempt
issues exactly retry-bound + 1 requests (fill_exchanges: MAX_RETRIES + 1
= 4; update_daily_meta: MAX_429_RETRIES + 1 = 3), sleeping
20 * retry_count seconds between consecutive attempts (linearly
increasing), then records the id in DeferCache with the current time and
returns an empty result; any further queued responses are never
requested. -/
theorem c4_bounded_retries (cid : String) (cache : List (String × String))
    (deferC : List (String × Nat)) (now : Nat)
    (extra : List ExResp) (mextra : List MetaResp)
    (hc : aget cache (sha256_hexdigest cid) = none)
    (hd : aget deferC cid = none) :
    fetch_exchanges cid cache deferC now
        (List.replicate (MAX_RETRIES + 1) ExResp.rateLimited ++ extra)
      = { result := ""
          cache := cache
          defer := aset deferC cid now
          requests := MAX_RETRIES + 1
          sleeps := [20, 40, 60] }
    ∧ fetch_meta cid deferC now
        (List.replicate (MAX_429_RETRIES + 1) MetaResp.rateLimited ++ mextra)
      = { raised := false
          result := none
          defer := aset deferC cid now
          requests := MAX_429_RETRIES + 1
          sleeps := [20, 40] } := by
  constructor
  · simp only [fetch_exchanges, hc, hd]
    rfl
  · simp only [fetch_meta, hd]
    rfl

/-- C4 witness: the all-429 scenario at a concrete id and time. -/
theorem c4_witness :
    aget ([] : List (String × String)) (sha256_hexdigest ("btc")) = none
      ∧ aget ([] : List (String × Nat)) ("btc") = none
      ∧ (fetch_exchanges ("btc") [] [] 777
            (List.replicate (MAX_RETRIES + 1) ExResp.rateLimited ++ [])
          = { result := ""
              cache := []
              defer := aset [] ("btc") 777
              requests := MAX_RETRIES + 1
              sleeps := [20, 40, 60] }
        ∧ fetch_meta ("btc") [] 777
            (List.replicate (MAX_429_RETRIES + 1) MetaResp.rateLimited ++ [])
          = { raised := false
              result := none
              defer := aset [] ("btc") 777
              requests := MAX_429_RETRIES + 1
              sleeps := [20, 40] }) :=
  ⟨by decide, by decide,
    c4_bounded_retries ("btc") [] [] 777 [] [] (by decide) (by decide)⟩

/-- C5 (confirmed): an id recorded in DeferCache at a positive unix time
T is skipped by both detail fetchers — "no data", zero requests, state
untouched — at any time strictly before T + 24h, and at or after
T + 24h the guard passes and the fetch proceeds to the network (at
least one request is issued). -/
theorem c5_defer_window (cid : String) (cache : List (String × String))
    (deferC : List (String × Nat)) (T now1 now2 : Nat)
    (resps : List ExResp) (r0 : ExResp)
    (mresps : List MetaResp) (m0 : MetaResp)
    (hc : aget cache (sha256_hexdigest cid) = none)
    (hd : aget deferC cid = some T) (hT : 0 < T)
    (hbefore : now1 < T + 86400)
    (hafter : T + 86400 ≤ now2) :
    ((fetch_exchanges cid cache deferC now1 resps).result = ""
      ∧ (fetch_exchanges cid cache deferC now1 resps).requests = 0
      ∧ (fetch_exchanges cid cache deferC now1 resps).defer = deferC
      ∧ (fetch_exchanges cid cache deferC now1 resps).cache = cache)
    ∧ 1 ≤ (fetch_exchanges cid cache deferC now2 (r0 :: resps)).requests
    ∧ ((fetch_meta cid deferC now1 mresps).result = none
      ∧ (fetch_meta cid deferC now1 mresps).requests = 0
      ∧ (fetch_meta cid deferC now1 mresps).defer = deferC)
    ∧ 1 ≤ (fetch_meta cid deferC now2 (m0 :: mresps)).requests := by
  have hskip : SKIP_HOURS * 3600 = 86400 := rfl
  have hdefw : DEFER_HOURS * 3600 = 86400 := rfl
  have hg1 : T ≠ 0 ∧ now1 < T + SKIP_HOURS * 3600 := by rw [hskip]; omega
  have hg2 : ¬ (T ≠ 0 ∧ now2 < T + SKIP_HOURS * 3600) := by rw [hskip]; omega
  have hm1 : T ≠ 0 ∧ now1 < T + DEFER_HOURS * 3600 := by rw [hdefw]; omega
  have hm2 : ¬ (T ≠ 0 ∧ now2 < T + DEFER_HOURS * 3600) := by rw [hdefw]; omega
  refine ⟨?_, ?_, ?_, ?_⟩
  · simp [fetch_exchanges, hc, hd, if_pos hg1]
  · simp only [fetch_exchanges, hc, hd, if_neg hg2]
    exact exLoop_requests_pos cid (sha256_hexdigest cid) now2 cache deferC
      0 [] 1 r0 resps
  · simp [fetch_meta, hd, if_pos hm1]
  · simp only [fetch_meta, hd, if_neg hm2]
    exact metaLoop_requests_pos cid now2 deferC 0 m0 mresps

/-- C5 witness: a concrete deferred id is skipped 5000s after deferral
and attempted again 90000s after. -/
theorem c5_witness :
    aget ([] : List (String × String)) (sha256_hexdigest ("btc")) = none
      ∧ aget [(("btc"), 100)] ("btc") = some 100
      ∧ 0 < 100
      ∧ 5000 < 100 + 86400
      ∧ 100 + 86400 ≤ 90000
      ∧ (((fetch_exchanges ("btc") [] [(("btc"), 100)] 5000 []).result = ""
          ∧ (fetch_exchanges ("btc") [] [(("btc"), 100)] 5000 []).requests = 0
          ∧ (fetch_exchanges ("btc") [] [(("btc"), 100)] 5000 []).defer
              = [(("btc"), 100)]
          ∧ (fetch_exchanges ("btc") [] [(("btc"), 100)] 5000 []).cache = [])
        ∧ 1 ≤ (fetch_exchanges ("btc") [] [(("btc"), 100)] 90000
            [ExResp.hardError]).requests
        ∧ ((fetch_meta ("btc") [(("btc"), 100)] 5000 []).result = none
          ∧ (fetch_meta ("btc") [(("btc"), 100)] 5000 []).requests = 0
          ∧ (fetch_meta ("btc") [(("btc"), 100)] 5000 []).defer
              = [(("btc"), 100)])
        ∧ 1 ≤ (fetch_meta ("btc") [(("btc"), 100)] 90000
            [MetaResp.hardError]).requests) :=
  ⟨by decide, by decide, by decide, by decide, by decide,
    c5_defer_window ("btc") [] [(("btc"), 100)] 100 5000 90000
      [] ExResp.hardError [] MetaResp.hardError
      (by decide) (by decide) (by decide) (by decide) (by decide)⟩

/-- C6 counterexample: `fetch_meta` receives a hard (non-200, non-429)
status for an undeferred id and DOES record the id in DeferCache with
the current time, contradicting the claim that a hard error never
defers. -/
theorem c6_counterexample :
    aget (fetch_meta ("btc") [] 100 [MetaResp.hardError]).defer ("btc")
        = some 100
      ∧ (fetch_meta ("btc") [] 100 [MetaResp.hardError]).result = none := by
  exact ⟨rfl, rfl⟩

/-- C6 (amended): a hard (non-200, non-429) response makes
`fetch_exchanges` return "no data" for the run WITHOUT deferring, but
`fetch_meta` records the id in DeferCache with the current time — and
likewise for an unparsable 200 payload in `fetch_meta` — before
returning "no data". -/
theorem c6_hard_error_amended (cid : String) (cache : List (String × String))
    (deferC : List (String × Nat)) (now : Nat)
    (rest : List ExResp) (mrest : List MetaResp)
    (hc : aget cache (sha256_hexdigest cid) = none)
    (hd : aget deferC cid = none) :
    fetch_exchanges cid cache deferC now (ExResp.hardError :: rest)
      = { result := ""
          cache := cache
          defer := deferC
          requests := 1
          sleeps := [] }
    ∧ fetch_meta cid deferC now (MetaResp.hardError :: mrest)
      = { raised := false
          result := none
          defer := aset deferC cid now
          requests := 1
          sleeps := [] }
    ∧ fetch_meta cid deferC now (MetaResp.malformed :: mrest)
      = { raised := false
          result := none
          defer := aset deferC cid now
          requests := 1
          sleeps := [] } := by
  refine ⟨?_, ?_, ?_⟩
  · simp only [fetch_exchanges, hc, hd]
    rfl
  · simp only [fetch_meta, hd]
    rfl
  · simp only [fetch_meta, hd]
    rfl

/-- C6 witness: the amended hard-error behaviour at a concrete input. -/
theorem c6_witness :
    aget ([] : List (String × String)) (sha256_hexdigest ("btc")) = none
      ∧ aget ([] : List (String × Nat)) ("btc") = none
      ∧ (fetch_exchanges ("btc") [] [] 100 [ExResp.hardError]
          = { result := ""
              cache := []
              defer := []
              requests := 1
              sleeps := [] }
        ∧ fetch_meta ("btc") [] 100 [MetaResp.hardError]
          = { raised := false
              result := none
              defer := aset [] ("btc") 100
              requests := 1
              sleeps := [] }
        ∧ fetch_meta ("btc") [] 100 [MetaResp.malformed]
          = { raised := false
              result := none
              defer := aset [] ("btc") 100
              requests := 1
              sleeps := [] }) :=
  ⟨by decide, by decide,
    c6_hard_error_amended ("btc") [] [] 100 [] [] (by decide) (by decide)⟩

/-- C7 counterexample: a transport error during `fetch_meta` is uncaught
— the exception propagates (aborting the run) and the id is NOT recorded
in DeferCache — contradicting the claim that every detail-level
transport error defers the id and lets the run continue. -/
theorem c7_counterexample :
    (fetch_meta ("btc") [] 100 [MetaResp.transportError]).raised = true
      ∧ (fetch_meta ("btc") [] 100 [MetaResp.transportError]).defer = [] := by
  exact ⟨rfl, rfl⟩

/-- C7 (amended): in `fetch_exchanges` a transport error is caught: the
id is recorded in DeferCache with the current time, no retry and no
backoff sleep happens, and "" is returned (the run continues). In
`fetch_meta` the request is not wrapped in a handler: the exception
propagates, no state is recorded, and the run terminates. -/
theorem c7_transport_amended (cid : String) (cache : List (String × String))
    (deferC : List (String × Nat)) (now : Nat)
    (rest : List ExResp) (mrest : List MetaResp)
    (hc : aget cache (sha256_hexdigest cid) = none)
    (hd : aget deferC cid = none) :
    fetch_exchanges cid cache deferC now (ExResp.transportError :: rest)
      = { result := ""
          cache := cache
          defer := aset deferC cid now
          requests := 1
          sleeps := [] }
    ∧ fetch_meta cid deferC now (MetaResp.transportError :: mrest)
      = { raised := true
          result := none
          defer := deferC
          requests := 1
          sleeps := [] } := by
  constructor
  · simp only [fetch_exchanges, hc, hd]
    rfl
  · simp only [fetch_meta, hd]
    rfl

/-- C7 witness: the amended transport-error behaviour at a concrete
input. -/
theorem c7_witness :
    aget ([] : List (String × String)) (sha256_hexdigest ("btc")) = none
      ∧ aget ([] : List (String × Nat)) ("btc") = none
      ∧ (fetch_exchanges ("btc") [] [] 100 [ExResp.transportError]
          = { result := ""
              cache := []
              defer := aset [] ("btc") 100
              requests := 1
              sleeps := [] }
        ∧ fetch_meta ("btc") [] 100 [MetaResp.transportError]
          = { raised := true
              result := none
              defer := []
              requests := 1
              sleeps := [] }) :=
  ⟨by decide, by decide,
    c7_transport_amended ("btc") [] [] 100 [] [] (by decide) (by decide)⟩

/-- C8 counterexample: ten consecutive RateLimited responses on page 1
of the daily listing fetch do not abort it — an eleventh request is
issued and the fetch completes successfully — so no `max_page_retries`
bound exists (no such constant appears in the code) and exceeding any
purported bound does not abort the listing fetch. -/
theorem c8_counterexample :
    (fetch_markets_daily (List.replicate 10 ListResp.rateLimited
        ++ [ListResp.success []])).requests = 11
      ∧ (fetch_markets_daily (List.replicate 10 ListResp.rateLimited
          ++ [ListResp.success []])).aborted = false := by
  exact ⟨rfl, rfl⟩

/-- C8 (amended): the daily listing fetch retries a RateLimited page
INDEFINITELY with linearly increasing backoff (after k consecutive 429s
it has issued k+1 requests and slept 20*1, ..., 20*k seconds, with no
abort), and any non-200 hard status or transport error aborts the whole
listing fetch with no rows accumulated, so no partial listing is ever
merged.  The listing fetch of update_prices performs no status handling
at all. -/
theorem c8_unbounded_retries_amended (k : Nat) (rest : List ListResp) :
    ((fetch_markets_daily (List.replicate k ListResp.rateLimited
        ++ (ListResp.success [] :: rest))).requests = k + 1
      ∧ (fetch_markets_daily (List.replicate k ListResp.rateLimited
          ++ (ListResp.success [] :: rest))).aborted = false
      ∧ (fetch_markets_daily (List.replicate k ListResp.rateLimited
          ++ (ListResp.success [] :: rest))).waits
            = (List.range k).map (fun t => 20 * (t + 1)))
    ∧ ((fetch_markets_daily (List.replicate k ListResp.rateLimited
        ++ (ListResp.hardError :: rest))).aborted = true
      ∧ (fetch_markets_daily (List.replicate k ListResp.rateLimited
          ++ (ListResp.hardError :: rest))).rows = [])
    ∧ (fetch_markets_daily (List.replicate k ListResp.rateLimited
        ++ (ListResp.transportError :: rest))).aborted = true := by
  have h1 := marketsLoop_replicate_rl k [] 1 0 (ListResp.success [] :: rest)
  have h2 := marketsLoop_replicate_rl k [] 1 0 (ListResp.hardError :: rest)
  have h3 := marketsLoop_replicate_rl k [] 1 0 (ListResp.transportError :: rest)
  refine ⟨⟨?_, ?_, ?_⟩, ⟨?_, ?_⟩, ?_⟩
  · simp only [fetch_markets_daily]
    rw [h1]
    simp [marketsLoop]
    omega
  · simp only [fetch_markets_daily]
    rw [h1]
    simp [marketsLoop]
  · simp only [fetch_markets_daily]
    rw [h1]
    simp [marketsLoop]
  · simp only [fetch_markets_daily]
    rw [h2]
    simp [marketsLoop]
  · simp only [fetch_markets_daily]
    rw [h2]
    simp [marketsLoop]
  · simp only [fetch_markets_daily]
    rw [h3]
    simp [marketsLoop]

/-- C9 counterexample: the prices listing fetch receives a page of one
row — non-empty but far shorter than the configured page size of 250 —
and does NOT end pagination: it issues a request for the next page
(2 requests in total), contradicting the claim that a short page ends
every paginated fetch. -/
theorem c9_counterexample :
    ([(⟨some ("bitcoin"), []⟩ : Row)].length < PAGE_SIZE)
      ∧ (fetch_markets_prices [[⟨some ("bitcoin"), []⟩], []]).requests = 2 := by
  exact ⟨by decide, rfl⟩

/-- C9 (amended): only an EMPTY page ends the two listing fetches — a
short non-empty page is followed by a request for the next page — while the
per-entity detail fetch of fill_exchanges ends pagination on any page of
fewer than 100 tickers, issuing no request for a subsequent page. -/
theorem c9_pagination_amended (chunk : List Row) (rest : List (List Row))
    (p0 : List Row) (lchunk : List ListingRow) (l0 : ListResp)
    (lrest : List ListResp) (cid : String) (cache : List (String × String))
    (deferC : List (String × Nat)) (now : Nat)
    (tickers : List (Option String)) (exrest : List ExResp)
    (h1 : chunk ≠ []) (h2 : lchunk ≠ [])
    (h3 : tickers.length < 100)
    (hc : aget cache (sha256_hexdigest cid) = none)
    (hd : aget deferC cid = none) :
    (fetch_markets_prices ([] :: rest)).requests = 1
    ∧ 2 ≤ (fetch_markets_prices (chunk :: p0 :: rest)).requests
    ∧ (fetch_markets_daily (ListResp.success [] :: lrest)).requests = 1
    ∧ 2 ≤ (fetch_markets_daily (ListResp.success lchunk :: l0 :: lrest)).requests
    ∧ (fetch_exchanges cid cache deferC now
        (ExResp.success tickers :: exrest)).requests = 1 := by
  refine ⟨rfl, ?_, rfl, ?_, ?_⟩
  · simp only [fetch_markets_prices, pricesLoop]
    rw [if_neg (by simpa using h1)]
    have hp := pricesLoop_requests_pos ([] ++ chunk) p0 rest
    show 2 ≤ (pricesLoop ([] ++ chunk) (p0 :: rest)).requests + 1
    omega
  · simp only [fetch_markets_daily, marketsLoop]
    rw [if_neg (by simpa using h2)]
    have hp := marketsLoop_requests_pos ([] ++ lchunk) (1 + 1) 0 l0 lrest
    show 2 ≤ (marketsLoop ([] ++ lchunk) (1 + 1) 0 (l0 :: lrest)).requests + 1
    omega
  · simp only [fetch_exchanges, hc, hd, exLoop]
    rw [if_pos h3]

/-- C9 witness: concrete pages exercising all three pagination rules. -/
theorem c9_witness :
    ([(⟨some ("bitcoin"), []⟩ : Row)] : List Row) ≠ []
      ∧ ([⟨("eth"), none, none, ("t1")⟩] : List ListingRow) ≠ []
      ∧ ([some ("Binance")] : List (Option String)).length < 100
      ∧ aget ([] : List (String × String)) (sha256_hexdigest ("btc")) = none
      ∧ aget ([] : List (String × Nat)) ("btc") = none
      ∧ ((fetch_markets_prices ([] :: [])).requests = 1
        ∧ 2 ≤ (fetch_markets_prices
            ([(⟨some ("bitcoin"), []⟩ : Row)] :: [] :: [])).requests
        ∧ (fetch_markets_daily (ListResp.success [] :: [])).requests = 1
        ∧ 2 ≤ (fetch_markets_daily (ListResp.success
            [⟨("eth"), none, none, ("t1")⟩] :: ListResp.success [] :: [])).requests
        ∧ (fetch_exchanges ("btc") [] [] 50
            (ExResp.success [some ("Binance")] :: [ExResp.hardError])).requests
              = 1) :=
  ⟨by decide, by decide, by decide, by decide, by decide,
    c9_pagination_amended [⟨some ("bitcoin"), []⟩] [] []
      [⟨("eth"), none, none, ("t1")⟩] (ListResp.success []) []
      ("btc") [] [] 50 [some ("Binance")] [ExResp.hardError]
      (by decide) (by decide) (by decide) (by decide) (by decide)⟩

end TinPulse
